import Mathlib

/-!
Verification of the `test-pkgmatch` driver (`src/examples/test-pkgmatch.c`)
against its natural-language specification.

The driver cross-products a list of dependency constraints against a list of
package identifiers and prints every matching pair.  The matching engine
itself (`pkg_match`, linked from the `dewey.o`/`opattern.o` of pkg_install) is not
part of the sources of this repository: only its `extern int pkg_match(const char *,
const char *)` declaration appears.  The engine is therefore modelled from the
specification (its VersionComparator and PatternMatcher sections), while the
driver (argument handling, line reading into growable arrays, the nested
match-and-print loop) is embedded directly from the C source.
-/

namespace PkgMatch

/-- Modelled from the spec: a version component is either a non-negative
integer run or a non-digit run, produced by splitting the version string at
digit/non-digit boundaries. -/
inductive VComp where
  | num (n : Nat)
  | chars (cs : List Char)
deriving DecidableEq

/-- Modelled from the spec: tokenize a version string into an alternating
sequence of integer runs and non-digit runs, scanning left to right and
splitting at digit/non-digit boundaries.  Leading zeros of an integer run are
insignificant because the run is accumulated as a number. -/
def tokAux : List Char → Option VComp → List VComp
  | [], none => []
  | [], some v => [v]
  | c :: cs, acc =>
    if c.isDigit then
      match acc with
      | some (VComp.num n) => tokAux cs (some (VComp.num (n * 10 + (c.toNat - 48))))
      | some (VComp.chars s) => VComp.chars s :: tokAux cs (some (VComp.num (c.toNat - 48)))
      | none => tokAux cs (some (VComp.num (c.toNat - 48)))
    else
      match acc with
      | some (VComp.num n) => VComp.num n :: tokAux cs (some (VComp.chars [c]))
      | some (VComp.chars s) => tokAux cs (some (VComp.chars (s ++ [c])))
      | none => tokAux cs (some (VComp.chars [c]))

/-- Modelled from the spec: the component sequence of a version string. -/
def tokenize (s : String) : List VComp := tokAux s.data none

/-- Lexicographic comparison of two non-digit runs by character code. -/
def cmpChars : List Char → List Char → Ordering
  | [], [] => Ordering.eq
  | [], _ :: _ => Ordering.lt
  | _ :: _, [] => Ordering.gt
  | a :: as, b :: bs =>
    if a.toNat < b.toNat then Ordering.lt
    else if b.toNat < a.toNat then Ordering.gt
    else cmpChars as bs

/-- Modelled from the spec: comparison of two components at the same
position.  Integer runs compare numerically, non-digit runs compare
lexicographically by character code, and when the kinds differ the integer
run is GREATER. -/
def cmpComp : VComp → VComp → Ordering
  | VComp.num a, VComp.num b => compare a b
  | VComp.chars a, VComp.chars b => cmpChars a b
  | VComp.num _, VComp.chars _ => Ordering.gt
  | VComp.chars _, VComp.num _ => Ordering.lt

/-- Modelled from the spec: a remaining component sequence that is a
"pre-release-like" suffix: it starts with a non-digit run led by a letter
(such as the `a1` of `1.0a1`), as pinned by the conformance table, which
orders `1.0` above both `1.0a` and `1.0a1` while keeping `1.0` below
`1.0.1`. -/
def preRelease : List VComp → Bool
  | VComp.chars (c :: _) :: _ => c.isAlpha
  | _ => false

/-- Modelled from the spec: walk both component sequences in lockstep,
returning the first non-equal comparison; when one side is exhausted it is
LESS unless the remainder of the other side is a pre-release-like suffix, in
which case the exhausted (empty) continuation is GREATER. -/
def cmpComps : List VComp → List VComp → Ordering
  | [], [] => Ordering.eq
  | [], rest => if preRelease rest then Ordering.gt else Ordering.lt
  | rest, [] => if preRelease rest then Ordering.lt else Ordering.gt
  | a :: as, b :: bs =>
    match cmpComp a b with
    | Ordering.eq => cmpComps as bs
    | o => o

/-- Modelled from the spec: `compareVersions(a, b)` — pure and total over all
strings; LESS/EQUAL/GREATER becomes `Ordering.lt`/`.eq`/`.gt`. -/
def compareVersions (a b : String) : Ordering :=
  cmpComps (tokenize a) (tokenize b)

/-- Modelled from the spec: a relational operator of a ConstraintTerm. -/
inductive Op where
  | lt
  | le
  | gt
  | ge
  | eq
deriving DecidableEq

/-- Modelled from the spec: whether a comparison outcome satisfies an
operator. -/
def opHolds : Op → Ordering → Bool
  | Op.lt, Ordering.lt => true
  | Op.le, Ordering.lt => true
  | Op.le, Ordering.eq => true
  | Op.gt, Ordering.gt => true
  | Op.ge, Ordering.gt => true
  | Op.ge, Ordering.eq => true
  | Op.eq, Ordering.eq => true
  | _, _ => false

/-- A character that begins a relational operator token. -/
def isOpChar (c : Char) : Bool :=
  c = '<' || c = '>' || c = '='

/-- Modelled from the spec: scan the remainder of a dewey alternative after
one relational operator token, collecting the version characters of the
pending (operator, version) term (in reverse in `acc`) until the next
operator token or the end of the string.  A version substring is mandatory
directly after a relational operator: reaching the next operator or the end
with no version characters collected is a ParseError, and a lone `=` is an
unrecognized operator token. -/
def parseTermsAux : Op → List Char → List Char → Except String (List (Op × List Char))
  | op, acc, [] =>
    if acc.isEmpty then Except.error "missing version after operator"
    else Except.ok [(op, acc.reverse)]
  | op, acc, '<' :: '=' :: cs =>
    if acc.isEmpty then Except.error "missing version after operator"
    else do
      let ts ← parseTermsAux Op.le [] cs
      Except.ok ((op, acc.reverse) :: ts)
  | op, acc, '<' :: cs =>
    if acc.isEmpty then Except.error "missing version after operator"
    else do
      let ts ← parseTermsAux Op.lt [] cs
      Except.ok ((op, acc.reverse) :: ts)
  | op, acc, '>' :: '=' :: cs =>
    if acc.isEmpty then Except.error "missing version after operator"
    else do
      let ts ← parseTermsAux Op.ge [] cs
      Except.ok ((op, acc.reverse) :: ts)
  | op, acc, '>' :: cs =>
    if acc.isEmpty then Except.error "missing version after operator"
    else do
      let ts ← parseTermsAux Op.gt [] cs
      Except.ok ((op, acc.reverse) :: ts)
  | op, acc, '=' :: '=' :: cs =>
    if acc.isEmpty then Except.error "missing version after operator"
    else do
      let ts ← parseTermsAux Op.eq [] cs
      Except.ok ((op, acc.reverse) :: ts)
  | _, _, '=' :: _ => Except.error "unrecognized operator token"
  | op, acc, c :: cs => parseTermsAux op (c :: acc) cs

/-- Modelled from the spec: repeatedly parse (operator, version) pairs from
the remainder of a dewey alternative (everything after the name) until the
string is consumed. -/
def parseTerms : List Char → Except String (List (Op × List Char))
  | [] => Except.ok []
  | '<' :: '=' :: cs => parseTermsAux Op.le [] cs
  | '<' :: cs => parseTermsAux Op.lt [] cs
  | '>' :: '=' :: cs => parseTermsAux Op.ge [] cs
  | '>' :: cs => parseTermsAux Op.gt [] cs
  | '=' :: '=' :: cs => parseTermsAux Op.eq [] cs
  | _ :: _ => Except.error "unrecognized operator token"

/-- Modelled from the spec: split a full package identifier at the last `-`
that is followed by a digit into (name, version); `none` when the identifier
has no version-looking suffix. -/
def splitPkg : List Char → Option (List Char × List Char)
  | [] => none
  | c :: cs =>
    match splitPkg cs with
    | some (n, v) => some (c :: n, v)
    | none =>
      match c, cs with
      | '-', d :: _ => if d.isDigit then some ([], cs) else none
      | _, _ => none

/-- Modelled from the spec: evaluate a dewey alternative: the candidate
name (the part before the last `-` preceding a digit) must equal the
literal name of the pattern exactly, and every (operator, version) term must
hold of the candidate version under `compareVersions` (conjunction).  A
candidate with no version-looking suffix keeps its whole string as the name
and the empty string as its version. -/
def deweyEval (name : List Char) (terms : List (Op × List Char)) (pkg : List Char) : Bool :=
  let nv := match splitPkg pkg with
    | some nv => nv
    | none => (pkg, [])
  decide (nv.1 = name) &&
    terms.all fun t => opHolds t.1 (cmpComps (tokAux nv.2 none) (tokAux t.2 none))

/-- Modelled from the spec: anchored shell-glob matching over the full
candidate string: `*` matches any run including the empty one, `?` matches
exactly one character, every other character matches itself literally. -/
def globMatch : List Char → List Char → Bool
  | [], [] => true
  | [], _ :: _ => false
  | '*' :: ps, [] => globMatch ps []
  | '*' :: ps, c :: ss => globMatch ps (c :: ss) || globMatch ('*' :: ps) ss
  | '?' :: ps, _ :: ss => globMatch ps ss
  | '?' :: _, [] => false
  | p :: ps, c :: ss => decide (p = c) && globMatch ps ss
  | _ :: _, [] => false
termination_by p s => (s.length, p.length)
decreasing_by
  all_goals simp only [List.length_cons]
  all_goals first
    | exact Prod.Lex.right _ (Nat.lt_succ_self _)
    | exact Prod.Lex.left _ _ (Nat.lt_succ_self _)

/-- Modelled from the spec: split a pattern at every occurrence of the
disjunction marker `|` into its alternatives (an empty pattern yields one
empty alternative). -/
def splitAlts : List Char → List (List Char)
  | [] => [[]]
  | '|' :: rest => [] :: splitAlts rest
  | c :: rest =>
    match splitAlts rest with
    | a :: as => (c :: a) :: as
    | [] => [[c]]

/-- Modelled from the spec: parse and evaluate one alternative of a pattern.
A zero-length alternative is a ParseError.  An alternative containing a
relational operator character is a dewey pattern: the longest name strictly
before the first operator token, then (operator, version) terms; otherwise
it is matched as an anchored glob against the full candidate string (a
literal alternative without wildcards degenerates to exact equality). -/
def matchAlternative (alt : List Char) (pkg : List Char) : Except String Bool :=
  if alt.isEmpty then Except.error "empty alternative"
  else if alt.any isOpChar then do
    let name := alt.takeWhile fun c => !isOpChar c
    let terms ← parseTerms (alt.dropWhile fun c => !isOpChar c)
    Except.ok (deweyEval name terms pkg)
  else
    Except.ok (globMatch alt pkg)

/-- Modelled from the spec: evaluate all alternatives of a pattern against
the same candidate and take their disjunction; a ParseError in any alternative
surfaces (parse errors are detected for the whole pattern, never coerced to
a match result). -/
def matchAlts : List (List Char) → List Char → Except String Bool
  | [], _ => Except.ok false
  | a :: as, pkg => do
    let b ← matchAlternative a pkg
    let r ← matchAlts as pkg
    Except.ok (b || r)

/-- Modelled from the spec: `matchPattern(pattern, packageIdentifier)` in its
parse-then-evaluate form: split the pattern on the disjunction marker into
alternatives and match if any alternative matches, with parse errors
observable as `Except.error`. -/
def pkgMatchE (pattern pkg : String) : Except String Bool :=
  matchAlts (splitAlts pattern.data) pkg.data

/-- Modelled from the spec: the C entry point `int pkg_match(const char *,
const char *)` declared in `src/examples/test-pkgmatch.c`.  Its `int` return
carries no error channel, so a ParseError can only surface as 0 (false). -/
def pkg_match (pattern pkg : String) : Bool :=
  match pkgMatchE pattern pkg with
  | Except.ok b => b
  | Except.error _ => false

end PkgMatch

namespace Driver

open PkgMatch

/-- A line with a single trailing newline removed when present and
otherwise unchanged: the value the reading loop stores for a line whose
`strdup` finds no residue after it (it equals `storedLine` at the empty
residue).  The whole-program model reads its two files through it. -/
def stripNL (l : String) : String :=
  if l.data ≠ [] ∧ l.data.getLast? = some '\n' then
    String.mk (l.data.dropLast)
  else l

/-- The value `strdup(dep)` actually copies out of the `fgetln` buffer:
`fgetln` does not NUL-terminate the line, and the loop (`if (dep[dlen - 1]
== '\n') dep[dlen - 1] = '\0';`) writes a NUL only over a trailing newline.
When the line ends in a newline the copy is the line without it; otherwise
no NUL was ever written inside the line and the copy runs past its end
into whatever bytes follow in the stdio buffer, modelled by the residue
`junk` (up to the first NUL found there). -/
def storedLine (junk : String) (l : String) : String :=
  if l.data ≠ [] ∧ l.data.getLast? = some '\n' then
    String.mk (l.data.dropLast)
  else l ++ junk

/-- One slot of a `char **` array: still uninitialized, holding the `NULL`
terminator, or holding a `strdup`ed line. -/
inductive Cell where
  | uninit
  | nullp
  | str (s : String)
deriving DecidableEq

/-- The state of one growable array during a reading loop: the allocated
cells (the capacity of the array is `arr.length`, i.e. `dsize`/`psize`) and the
count of stored lines (`d`/`p`). -/
structure ReadState where
  arr : List Cell
  count : Nat
deriving DecidableEq

/-- Initial state: `d = 0` and `xmalloc(dsize * sizeof(char *))` with
`dsize = 32768`; fresh allocation is uninitialized. -/
def initReadState : ReadState :=
  { arr := List.replicate 32768 Cell.uninit, count := 0 }

/-- The body of one reading-loop iteration: `deps[d++] = strdup(dep);
if (d == dsize) ( dsize *= 2; deps = xrealloc(deps, dsize * sizeof(char *)); )`
— store what `strdup` copies (the line stripped of its trailing newline,
or the unterminated line plus the buffer residue) at index `count`, bump
the count, and when the count has reached the capacity double the capacity
(the newly acquired cells are uninitialized). -/
def insertLine (junk : String) (s : ReadState) (line : String) : ReadState :=
  let arr := s.arr.set s.count (Cell.str (storedLine junk line))
  let count := s.count + 1
  if count = arr.length then
    { arr := arr ++ List.replicate arr.length Cell.uninit, count := count }
  else
    { arr := arr, count := count }

/-- The reading loop: `while ((dep = fgetln(dfd, &dlen)) != NULL) ...` —
insert each raw line of the file in order.  `fgetln` yields each line with
its terminating newline kept (the final line may lack one) and never yields
an empty string. -/
def readLoop (junk : String) (s : ReadState) : List String → ReadState
  | [] => s
  | l :: ls => readLoop junk (insertLine junk s l) ls

/-- Reading one file completely: run the loop over all lines, then store the
terminator (`deps[d] = NULL;`). -/
def readFile (junk : String) (lines : List String) : ReadState :=
  let s := readLoop junk initReadState lines
  { s with arr := s.arr.set s.count Cell.nullp }

/-- The data the matching phase works on: the two arrays built by the
reading phase and the lines printed so far. -/
structure MState where
  deps : List String
  pkgs : List String
  out : List String
deriving DecidableEq

/-- The inner loop `while (pkgs[p] != NULL) ( if (pkg_match(deps[d],
pkgs[p])) printf("%s %s\n", deps[d], pkgs[p]); p++; )`, walking the stored
entries of `pkgs` that remain ahead of index `p`. -/
def runInner (dep : String) : List String → MState → MState
  | [], s => s
  | pkg :: rest, s =>
    runInner dep rest
      (if pkg_match dep pkg then { s with out := s.out ++ [dep ++ " " ++ pkg] } else s)

/-- The outer loop `while (deps[d] != NULL) ( ... d++; )`, walking the
stored entries of `deps`. -/
def runOuter : List String → MState → MState
  | [], s => s
  | dep :: rest, s => runOuter rest (runInner dep s.pkgs s)

/-- The whole match-and-print phase, started on the arrays produced by the
reading phase. -/
def matchPhase (deps pkgs : List String) : MState :=
  runOuter deps { deps := deps, pkgs := pkgs, out := [] }

/-- The lines the driver prints, in print order, for given stored
constraint and package lists. -/
def driverOutput (deps pkgs : List String) : List String :=
  (matchPhase deps pkgs).out

/-- The lines printed for one constraint: one line per matching package, in
stored package order. -/
def group (P : List String) (dep : String) : List String :=
  List.map (fun p => dep ++ " " ++ p) (List.filter (fun p => pkg_match dep p) P)

/-- Everything observable about one program run: the exit status, the lines
printed to standard output, what was written to standard error, and the raw
lines read from the two files. -/
structure ProgResult where
  exitCode : Nat
  stdout : List String
  errout : String
  readL : List String
deriving DecidableEq

/-- The usage message of the argument-count check. -/
def usageMsg : String := "usage: test-pkgmatch <pkgdeps.txt> <pkgnames.txt>"

/-- The whole program: `main` of `src/examples/test-pkgmatch.c`.  `argv` is
the full argument vector (program name included) and `fs` maps a file name
to its list of raw lines, `none` when `fopen` fails.  With a wrong argument
count the program prints usage to stderr and exits 1; when either file
fails to open it exits 1; otherwise it reads both files, matches, and
prints, falling off the end of `main` with status 0. -/
def runProgram (argv : List String) (fs : String → Option (List String)) : ProgResult :=
  if argv.length ≠ 3 then
    { exitCode := 1, stdout := [], errout := usageMsg, readL := [] }
  else
    match fs (argv[1]?.getD ""), fs (argv[2]?.getD "") with
    | some dl, some pl =>
      { exitCode := 0
        stdout := driverOutput (dl.map stripNL) (pl.map stripNL)
        errout := ""
        readL := dl ++ pl }
    | _, _ => { exitCode := 1, stdout := [], errout := "", readL := [] }

/-- A concrete file system: a dependency file holding one malformed
constraint and a package file holding one identifier. -/
def fsBad : String → Option (List String) := fun n =>
  if n = "d.txt" then some ["foo>=\n"]
  else if n = "p.txt" then some ["foo-1.0\n"]
  else none

/-- A concrete file system: one well-formed constraint and one package. -/
def fsA : String → Option (List String) := fun n =>
  if n = "d.txt" then some ["foo>1\n"]
  else if n = "p.txt" then some ["foo-2\n"]
  else none

/-- Like `fsA` with one extra unrelated file, for comparing two runs whose
two input files coincide. -/
def fsB : String → Option (List String) := fun n =>
  if n = "d.txt" then some ["foo>1\n"]
  else if n = "p.txt" then some ["foo-2\n"]
  else if n = "junk.txt" then some ["junk\n"]
  else none

end Driver

namespace Driver

open PkgMatch

/-- The inner loop leaves the arrays alone and appends, to whatever was
already printed, one line for each stored package that matches the
constraint, in stored order. -/
theorem runInner_eq (dep : String) (P : List String) (s : MState) :
    runInner dep P s = { s with out := s.out ++ group P dep } := by
  induction P generalizing s with
  | nil => simp [runInner, group]
  | cons p rest ih =>
    by_cases h : pkg_match dep p
    · simp [runInner, h, ih, group, List.filter_cons]
    · simp [runInner, h, ih, group, List.filter_cons]

/-- The outer loop leaves the arrays alone and appends one group of lines
per stored constraint, in stored order. -/
theorem runOuter_eq (D : List String) (s : MState) :
    runOuter D s = { s with out := s.out ++ D.flatMap (group s.pkgs) } := by
  induction D generalizing s with
  | nil => simp [runOuter]
  | cons d rest ih =>
    simp [runOuter, runInner_eq, ih]

/-- Closed form of the printed lines: one group per constraint in
constraint order, and inside a group one line per matching package in
package order. -/
theorem driverOutput_eq (D P : List String) :
    driverOutput D P = D.flatMap (group P) := by
  simp [driverOutput, matchPhase, runOuter_eq]

/-- Writing one slot and taking one slot further splits off exactly the
written value. -/
theorem take_set_succ {α : Type} (l : List α) (k : Nat) (v : α) (h : k < l.length) :
    (l.set k v).take (k + 1) = l.take k ++ [v] := by
  induction l generalizing k with
  | nil => simp at h
  | cons a as ih =>
    cases k with
    | zero => simp
    | succ k =>
      simp only [List.set, List.take_succ_cons, List.cons_append]
      rw [ih k (by simpa using h)]

/-- The initial state has stored nothing. -/
theorem init_count : initReadState.count = 0 := rfl

/-- The initial capacity is 32768 slots. -/
theorem init_len : initReadState.arr.length = 32768 := by
  show (List.replicate 32768 Cell.uninit).length = 32768
  rw [List.length_replicate]

/-- The initial state starts strictly inside its capacity. -/
theorem init_count_lt : initReadState.count < initReadState.arr.length := by
  rw [init_count, init_len]
  omega

/-- One insertion bumps the count by one. -/
theorem insertLine_count (junk : String) (s : ReadState) (l : String) :
    (insertLine junk s l).count = s.count + 1 := by
  simp only [insertLine]
  split <;> rfl

/-- One insertion doubles the capacity exactly when the new count has
reached it, and otherwise leaves it alone. -/
theorem insertLine_len (junk : String) (s : ReadState) (l : String) :
    (insertLine junk s l).arr.length =
      if s.count + 1 = s.arr.length then 2 * s.arr.length else s.arr.length := by
  simp only [insertLine, List.length_set]
  split
  next h => simp [h, Nat.two_mul]
  next h => simp [h]

/-- One insertion keeps the count strictly below the capacity. -/
theorem insertLine_lt (junk : String) (s : ReadState) (l : String)
    (h : s.count < s.arr.length) :
    (insertLine junk s l).count < (insertLine junk s l).arr.length := by
  rw [insertLine_count, insertLine_len]
  split
  next h1 => omega
  next h1 => omega

/-- One insertion appends exactly the copied string to the stored segment
of the array. -/
theorem insertLine_take (junk : String) (s : ReadState) (l : String)
    (h : s.count < s.arr.length) :
    (insertLine junk s l).arr.take (insertLine junk s l).count =
      s.arr.take s.count ++ [Cell.str (storedLine junk l)] := by
  rw [insertLine_count]
  simp only [insertLine]
  split
  next h1 =>
    dsimp only
    rw [List.take_append_of_le_length (by simp only [List.length_set] at h1 ⊢; omega)]
    exact take_set_succ s.arr s.count _ h
  next h1 =>
    dsimp only
    exact take_set_succ s.arr s.count _ h

/-- Invariant of the whole reading loop: starting from a state whose count
is below its capacity, the loop adds one stored line per input line, keeps
the count strictly below the capacity, scales the capacity by a power of
two, and extends the stored segment by exactly the stripped lines in file
order. -/
theorem readLoop_spec (junk : String) (ls : List String) (s : ReadState)
    (h : s.count < s.arr.length) :
    (readLoop junk s ls).count = s.count + ls.length ∧
    (readLoop junk s ls).count < (readLoop junk s ls).arr.length ∧
    (∃ m, (readLoop junk s ls).arr.length = 2 ^ m * s.arr.length) ∧
    (readLoop junk s ls).arr.take (readLoop junk s ls).count =
      s.arr.take s.count ++ ls.map (fun l => Cell.str (storedLine junk l)) := by
  induction ls generalizing s with
  | nil =>
    refine ⟨by simp [readLoop], by simpa [readLoop] using h, ⟨0, by simp [readLoop]⟩,
      by simp [readLoop]⟩
  | cons l ls ih =>
    have h1 : (insertLine junk s l).count < (insertLine junk s l).arr.length :=
      insertLine_lt junk s l h
    obtain ⟨hc, hlt, ⟨m, hm⟩, ht⟩ := ih (insertLine junk s l) h1
    refine ⟨?_, by simpa [readLoop] using hlt, ?_, ?_⟩
    · simp only [readLoop] at hc ⊢
      rw [hc, insertLine_count]
      simp only [List.length_cons]
      omega
    · simp only [readLoop]
      rw [hm, insertLine_len]
      split
      next h2 => exact ⟨m + 1, by ring⟩
      next h2 => exact ⟨m, rfl⟩
    · simp only [readLoop] at ht ⊢
      rw [ht, insertLine_take junk s l h]
      simp [List.map_cons]

/-- Reading one whole file stores, in file order, exactly what `strdup`
copies for each line, with the NULL terminator immediately after the last
stored line. -/
theorem readFile_stores (junk : String) (lines : List String) :
    (readFile junk lines).arr.take (lines.length + 1) =
      lines.map (fun l => Cell.str (storedLine junk l)) ++ [Cell.nullp] := by
  obtain ⟨hc, hlt, -, ht⟩ := readLoop_spec junk lines initReadState init_count_lt
  have hc' : (readLoop junk initReadState lines).count = lines.length := by
    rw [hc, init_count, Nat.zero_add]
  simp only [readFile]
  rw [← hc', take_set_succ _ _ _ hlt, ht]
  rfl

end Driver

namespace Claims

open PkgMatch Driver

/-- C1: for every dependency-constraint list and package-identifier list,
the driver prints exactly those pairs (constraint, package) for which
`pkg_match` returns true, each pair on its own line as the constraint, a
single space, and the package; no pair with a false result is printed and
no matching pair is omitted. -/
theorem C1_prints_exactly_matching_pairs (deps pkgs : List String) (line : String) :
    line ∈ driverOutput deps pkgs ↔
      ∃ d, d ∈ deps ∧ ∃ p, p ∈ pkgs ∧ pkg_match d p = true ∧ line = d ++ " " ++ p := by
  rw [driverOutput_eq]
  simp only [List.mem_flatMap, group, List.mem_map, List.mem_filter]
  constructor
  · rintro ⟨d, hd, p, ⟨hp, hm⟩, rfl⟩
    exact ⟨d, hd, p, hp, hm, rfl⟩
  · rintro ⟨d, hd, p, hp, hm, rfl⟩
    exact ⟨d, hd, p, ⟨hp, hm⟩, rfl⟩

/-- C2 fails on the code: the reading loop writes a NUL only over a
trailing newline (lines 59-60) and `fgetln` does not NUL-terminate its
buffer, so for a final line without a trailing newline `strdup` copies past
the line end and the stored string is the line followed by whatever bytes
sit in the stdio buffer — not the line unchanged.  At the one-line file
bar, two buffer residues give two different stored strings, while the
newline-terminated line bar followed by a newline is stored as bar
regardless of the residue. -/
theorem C2_unterminated_final_line_bug :
    (readFile "" ["bar"]).arr.take 2 = [Cell.str "bar", Cell.nullp] ∧
    (readFile "x" ["bar"]).arr.take 2 = [Cell.str "barx", Cell.nullp] ∧
    (readFile "" ["bar\n"]).arr.take 2 = [Cell.str "bar", Cell.nullp] ∧
    (readFile "x" ["bar\n"]).arr.take 2 = [Cell.str "bar", Cell.nullp] :=
  ⟨readFile_stores "" ["bar"], readFile_stores "x" ["bar"],
   readFile_stores "" ["bar\n"], readFile_stores "x" ["bar\n"]⟩

/-- C3 counterexample: the malformed constraint foo>= is a ParseError for
the matching engine, yet the observable driver behavior on it (its
printed lines, its exit status, the absence of anything on standard error)
is identical to its behavior on the well-formed constraint zzz>1 that
simply matches nothing: the driver reports nothing and treats the parse
failure exactly like an ordinary "matched false" result. -/
theorem C3_counterexample :
    pkgMatchE "foo>=" "foo-1.0" = Except.error "missing version after operator" ∧
    pkgMatchE "zzz>1" "foo-1.0" = Except.ok false ∧
    driverOutput ["foo>="] ["foo-1.0"] = driverOutput ["zzz>1"] ["foo-1.0"] ∧
    runProgram ["test-pkgmatch", "d.txt", "p.txt"] fsBad =
      { exitCode := 0, stdout := [], errout := "", readL := ["foo>=\n", "foo-1.0\n"] } :=
  ⟨rfl, rfl, by decide, by decide⟩

/-- C3 as amended: the driver does not report a malformed constraint line.
`pkg_match` returns false whenever its pattern fails to parse (the int
interface has no error channel), so a constraint all of whose matches are
false — in particular a malformed one — contributes no output lines, is
observably identical to a well-formed constraint matching nothing, and the
driver continues with the remaining constraints. -/
theorem C3_amended :
    (∀ pat pkg e, pkgMatchE pat pkg = Except.error e → pkg_match pat pkg = false) ∧
    (∀ ds1 c ds2 P, (∀ p, p ∈ P → pkg_match c p = false) →
      driverOutput (ds1 ++ c :: ds2) P = driverOutput (ds1 ++ ds2) P) := by
  constructor
  · intro pat pkg e he
    simp [pkg_match, he]
  · intro ds1 c ds2 P hall
    rw [driverOutput_eq, driverOutput_eq, List.flatMap_append, List.flatMap_append,
      List.flatMap_cons]
    have hg : group P c = [] := by
      simp only [group]
      rw [List.filter_eq_nil_iff.mpr (fun a ha => by simp [hall a ha])]
      rfl
    rw [hg]
    simp

/-- Witness for the amended C3: the malformed constraint foo>= evaluates to
false against foo-1.0, and dropping it from a dependency list leaves the
driver output unchanged. -/
theorem C3_amended_witness :
    pkg_match "foo>=" "foo-1.0" = false ∧
    driverOutput ["foo>=", "bar>1"] ["bar-2"] = driverOutput ["bar>1"] ["bar-2"] :=
  ⟨C3_amended.1 "foo>=" "foo-1.0" "missing version after operator" rfl,
   C3_amended.2 [] "foo>=" ["bar>1"] ["bar-2"] (by decide)⟩

/-- C4: the matching phase is read-only with respect to the stored data:
after the match-and-print loops complete, the deps and pkgs arrays are
unchanged from their state at the end of the reading phase. -/
theorem C4_matching_phase_readonly (deps pkgs : List String) :
    (matchPhase deps pkgs).deps = deps ∧ (matchPhase deps pkgs).pkgs = pkgs := by
  simp [matchPhase, runOuter_eq]

/-- C5: the alternation pattern foo<1.0|foo>=2.0 accepts foo-0.5 and
foo-2.1 and rejects foo-1.5. -/
theorem C5_alternation_example :
    pkg_match "foo<1.0|foo>=2.0" "foo-0.5" = true ∧
    pkg_match "foo<1.0|foo>=2.0" "foo-2.1" = true ∧
    pkg_match "foo<1.0|foo>=2.0" "foo-1.5" = false := by
  decide

/-- C6: the printed line sequence is a deterministic function of the contents of the two
input files: two runs whose argument vectors name files with the
same contents produce identical standard output. -/
theorem C6_deterministic_output (a1 a2 : List String)
    (f1 f2 : String → Option (List String))
    (h1 : a1.length = 3) (h2 : a2.length = 3)
    (hd : f1 (a1[1]?.getD "") = f2 (a2[1]?.getD ""))
    (hp : f1 (a1[2]?.getD "") = f2 (a2[2]?.getD "")) :
    (runProgram a1 f1).stdout = (runProgram a2 f2).stdout := by
  have n1 : ¬(a1.length ≠ 3) := by omega
  have n2 : ¬(a2.length ≠ 3) := by omega
  simp only [runProgram]
  rw [if_neg n1, if_neg n2, hd, hp]

/-- Witness for C6: two runs on file systems that agree on the two named
files (one of them holding an extra unrelated file) print the same lines. -/
theorem C6_witness :
    (runProgram ["test-pkgmatch", "d.txt", "p.txt"] fsA).stdout =
      (runProgram ["test-pkgmatch", "d.txt", "p.txt"] fsB).stdout :=
  C6_deterministic_output ["test-pkgmatch", "d.txt", "p.txt"]
    ["test-pkgmatch", "d.txt", "p.txt"] fsA fsB rfl rfl (by decide) (by decide)

/-- C7: after any number of insertions the stored count is strictly below
the capacity, the capacity is 32768 times a power of two, and one more
insertion doubles the capacity exactly when the new count reaches it. -/
theorem C7_growable_array_invariant (junk : String) (lines : List String) :
    (readLoop junk initReadState lines).count <
      (readLoop junk initReadState lines).arr.length ∧
    (∃ k, (readLoop junk initReadState lines).arr.length = 32768 * 2 ^ k) ∧
    ∀ l, (insertLine junk (readLoop junk initReadState lines) l).arr.length =
      if (readLoop junk initReadState lines).count + 1 =
          (readLoop junk initReadState lines).arr.length
      then 2 * (readLoop junk initReadState lines).arr.length
      else (readLoop junk initReadState lines).arr.length := by
  obtain ⟨-, hlt, ⟨m, hm⟩, -⟩ := readLoop_spec junk lines initReadState init_count_lt
  exact ⟨hlt, ⟨m, by rw [hm, init_len, Nat.mul_comm]⟩, fun l => insertLine_len junk _ l⟩

/-- C8: the NULL-terminator store after the reading loop writes strictly
inside the allocated capacity, for every possible input file: the loop can
only exit with count below capacity, and the terminator lands in that
slot. -/
theorem C8_null_terminator_in_bounds (junk : String) (lines : List String) :
    (readLoop junk initReadState lines).count <
      (readLoop junk initReadState lines).arr.length ∧
    (readFile junk lines).arr[(readLoop junk initReadState lines).count]? =
      some Cell.nullp := by
  obtain ⟨-, hlt, -, -⟩ := readLoop_spec junk lines initReadState init_count_lt
  exact ⟨hlt, by simp only [readFile]; exact List.getElem?_set_self hlt⟩

/-- C9: with an argument count other than 3 the program exits 1 after
printing the usage message to standard error, reading no lines and printing
nothing; with 3 arguments but an unopenable file it exits 1 reading no
lines and printing nothing. -/
theorem C9_error_exit (argv : List String) (fs : String → Option (List String)) :
    (argv.length ≠ 3 →
      runProgram argv fs =
        { exitCode := 1, stdout := [], errout := usageMsg, readL := [] }) ∧
    (argv.length = 3 →
      (fs (argv[1]?.getD "") = none ∨ fs (argv[2]?.getD "") = none) →
      runProgram argv fs =
        { exitCode := 1, stdout := [], errout := "", readL := [] }) := by
  constructor
  · intro h
    simp only [runProgram]
    rw [if_pos h]
  · intro h3 hf
    have n3 : ¬(argv.length ≠ 3) := by omega
    simp only [runProgram]
    rw [if_neg n3]
    rcases hf with hf | hf
    · cases hy : fs (argv[2]?.getD "") <;> rw [hf]
    · cases hy : fs (argv[1]?.getD "") <;> rw [hf]

/-- Witness for C9: a run with one argument, and a run with three arguments
naming unopenable files. -/
theorem C9_witness :
    runProgram ["test-pkgmatch"] (fun _ => none) =
      { exitCode := 1, stdout := [], errout := usageMsg, readL := [] } ∧
    runProgram ["test-pkgmatch", "a", "b"] (fun _ => none) =
      { exitCode := 1, stdout := [], errout := "", readL := [] } :=
  ⟨(C9_error_exit ["test-pkgmatch"] (fun _ => none)).1 (by decide),
   (C9_error_exit ["test-pkgmatch", "a", "b"] (fun _ => none)).2 (by decide)
     (Or.inl rfl)⟩

/-- C10: the printed lines appear grouped by constraint in dependency-file
order, and within a group the matching packages appear in package-file
order. -/
theorem C10_output_ordering (deps pkgs : List String) :
    driverOutput deps pkgs =
      deps.flatMap (fun d =>
        (List.filter (fun p => pkg_match d p) pkgs).map (fun p => d ++ " " ++ p)) := by
  rw [driverOutput_eq]
  rfl

end Claims
